import Mathlib

/-!
# jaeger-telegram-error-notifier: a shallow embedding of `main.go`

The program polls a Jaeger query service for spans tagged `error=true`, turns every log
event whose `level` field is `error` into a text message and sends the messages to one
Telegram chat.  This file embeds the four functions of `main.go`

* `createErrorMessage` (lines 143-169),
* `getErrorMessages`   (lines 90-141),
* `sendErrorMessages`  (lines 71-88),
* the body of the `for` loop of `main` (lines 33-51),

and states the properties of the specification over them.

Modelling conventions.

* A Go `string` that comes from the tracing backend is a Lean `String` (a sequence of
  Unicode code points); its Go byte representation is the UTF-8 encoding `goBytes`.
  Go's `len` and slicing work on that byte representation.
* `time.Time` and `time.Duration` are integers counting nanoseconds; their arithmetic is
  exact (no value leaves the `int64` range).
* A trace stream delivers finitely many chunks before `Recv()` reports its end.
* The outside world (clock readings, what the backend answers, whether a `bot.Send`
  succeeds) is an explicit argument of the functions that consult it.
* Console output (`log.Println`, `fmt.Println`) is not part of the state.
* Library code the program calls (`strings.ToLower`, `fmt.Sprintf`, `TraceID.String`) is
  modelled as far as the program uses it.
-/

namespace JaegerNotifier

/-! ## Data model -/

/-- A Go `error` value, represented by its message. -/
abbrev GoError := String

/-- Type `model.KeyValue` of the Jaeger library, restricted to the two fields the program
reads: `GetKey()` and `GetVStr()`. -/
structure KeyValue where
  Key : String
  VStr : String
deriving DecidableEq, Repr

/-- Type `model.TraceID` of the Jaeger library: the two `uint64` halves of a 128-bit
trace id, each a natural number below 2^64. -/
structure TraceID where
  High : Nat
  Low : Nat
deriving DecidableEq, Repr

/-- Type `model.Log`: one log event of a span; the program reads `GetFields()`. -/
structure Log where
  Fields : List KeyValue
deriving DecidableEq, Repr

/-- Type `model.Span`, restricted to what the program reads: `GetOperationName()`,
`TraceID`, `GetTags()` and `GetLogs()`. -/
structure Span where
  OperationName : String
  TraceID : TraceID
  Tags : List KeyValue
  Logs : List Log
deriving DecidableEq, Repr

/-- Type `api_v2.SpansResponseChunk`: one successful `Recv()` of the trace stream. -/
structure SpansResponseChunk where
  Spans : List Span
deriving DecidableEq, Repr

/-! ## Library functions used by the program -/

/-- Go's `strings.ToLower`, modelled on ASCII letters.  Go lower-cases every Unicode
letter; the program only compares the result with `"error"`, and no code point outside
ASCII lower-cases to `e`, `r` or `o`, so the comparison is the same. -/
def strings.ToLower (s : String) : String :=
  ⟨s.data.map Char.toLower⟩

/-- The verb `%016x` of `fmt.Sprintf` on an unsigned integer: its lower-case hexadecimal
digits, padded with zeros on the left to a width of 16. -/
def fmt.hex16 (n : Nat) : String :=
  ⟨List.replicate (16 - (Nat.toDigits 16 n).length) '0' ++ Nat.toDigits 16 n⟩

/-- Method `String()` of `model.TraceID` (Jaeger library, `model/ids.go`): the low half as
`%016x` when the high half is zero, otherwise both halves as `%016x%016x`. -/
def TraceID.String (t : TraceID) : String :=
  if t.High = 0 then fmt.hex16 t.Low else fmt.hex16 t.High ++ fmt.hex16 t.Low

/-- The verbs of `fmt.Sprintf` that the program uses: `%s` and `%d` each consume the next
argument (given already rendered), every other character of the format is copied. -/
def fmt.Sprintf.go : List Char → List String → List Char
  | '%' :: 's' :: rest, a :: args => a.data ++ fmt.Sprintf.go rest args
  | '%' :: 'd' :: rest, a :: args => a.data ++ fmt.Sprintf.go rest args
  | c :: rest, args => c :: fmt.Sprintf.go rest args
  | [], _ => []

/-- Go's `fmt.Sprintf` for formats made of text, `%s` and `%d`. -/
def fmt.Sprintf (format : String) (args : List String) : String :=
  ⟨fmt.Sprintf.go format.data args⟩

/-! ## `createErrorMessage` (main.go lines 143-169) -/

/-- The loop of lines 151-155: every tag with key `code.namespace` overwrites
`namespace`; there is no `break`. -/
def createErrorMessage.tagLoop (namespace_ : String) : List KeyValue → String
  | [] => namespace_
  | tag :: rest =>
    createErrorMessage.tagLoop (if tag.Key = "code.namespace" then tag.VStr else namespace_) rest

/-- The loop of lines 156-166 over the fields of the log event, with the three variables
`event`, `target`, `message` it assigns; there is no `break`. -/
def createErrorMessage.fieldLoop (event target message : String) :
    List KeyValue → String × String × String
  | [] => (event, target, message)
  | log :: rest =>
    let event := if log.Key = "event" then log.VStr else event
    let target := if log.Key = "target" then log.VStr else target
    let message := if log.Key = "exception.message" then log.VStr else message
    createErrorMessage.fieldLoop event target message rest

/-- Function `createErrorMessage(span, log)`. -/
def createErrorMessage (span : Span) (log : Log) : String :=
  let operation := span.OperationName
  let namespace_ := createErrorMessage.tagLoop "" span.Tags
  let traceId := span.TraceID.String
  let (event, target, message) := createErrorMessage.fieldLoop "" "" "" log.Fields
  fmt.Sprintf "Error occured!\n\nParent: %s (%s)\nTrace: %s\n\nTarget: %s\n\n%s\n%s"
    [operation, namespace_, traceId, target, event, message]

/-! ## `getErrorMessages` (main.go lines 90-141) -/

/-- The loop of lines 127-133: `isError` becomes true at the first field with key
`level` whose value lower-cases to `error`, and the loop breaks there. -/
def getErrorMessages.isError : List KeyValue → Bool
  | [] => false
  | field :: rest =>
    if field.Key = "level" ∧ strings.ToLower field.VStr = "error" then true
    else getErrorMessages.isError rest

/-- The loop of lines 125-137 over the log events of one span, appending to `errors`. -/
def getErrorMessages.logLoop (span : Span) (errors : List String) : List Log → List String
  | [] => errors
  | spanLog :: rest =>
    let isError := getErrorMessages.isError spanLog.Fields
    getErrorMessages.logLoop span
      (if isError then errors ++ [createErrorMessage span spanLog] else errors) rest

/-- The loop of lines 124-138 over the spans of one response chunk. -/
def getErrorMessages.spanLoop (errors : List String) : List Span → List String
  | [] => errors
  | span :: rest =>
    getErrorMessages.spanLoop (getErrorMessages.logLoop span errors span.Logs) rest

/-- What the tracing backend does during one call of `getErrorMessages`: `grpc.Dial`
fails, or `FindTraces` fails, or a stream is opened on which `Recv()` yields the chunks in
order and then ends with `io.EOF` (`none`) or with another error (`some e`). -/
inductive QueryOutcome where
  | dialError (e : GoError)
  | findTracesError (e : GoError)
  | stream (chunks : List SpansResponseChunk) (last : Option GoError)
deriving DecidableEq, Repr

/-- The `Recv` loop of lines 116-139: returns `errors, nil` at `io.EOF` and `errors, err`
at any other receive error. -/
def getErrorMessages.recvLoop (last : Option GoError) (errors : List String) :
    List SpansResponseChunk → List String × Option GoError
  | [] =>
    match last with
    | none => (errors, none)
    | some err => (errors, some err)
  | res :: rest =>
    getErrorMessages.recvLoop last (getErrorMessages.spanLoop errors res.Spans) rest

/-- The tracing backend as the program sees it: the answer to a query for a server
address, a start time and a service name. -/
abbrev Jaeger := String → Int → String → QueryOutcome

/-- Function `getErrorMessages(err, serverAddr, startTime, serviceName)`; the first
argument of the source is overwritten before it is read and is left out. -/
def getErrorMessages (jaeger : Jaeger) (serverAddr : String) (startTime : Int)
    (serviceName : String) : List String × Option GoError :=
  match jaeger serverAddr startTime serviceName with
  | .dialError err => ([], some err)
  | .findTracesError err => ([], some err)
  | .stream chunks last => getErrorMessages.recvLoop last [] chunks

/-! ## `sendErrorMessages` (main.go lines 71-88) -/

/-- The bytes of a Go string. -/
abbrev Bytes := List UInt8

/-- The byte representation of a Go string holding the text `s`: its UTF-8 encoding. -/
def goBytes (s : String) : Bytes :=
  s.toUTF8.data.toList

/-- One call of `bot.Send`: the recipient, the text handed over, and the error the call
returned (`none` when the message was delivered). -/
structure SendRecord where
  recipient : Int
  what : Bytes
  err : Option GoError
deriving DecidableEq, Repr

/-- The Telegram side of `bot.Send`: given the calls made so far, the recipient and the
text, whether this call fails. -/
structure Bot where
  respond : List SendRecord → Int → Bytes → Option GoError

/-- Method `bot.Send(recipient, what)`: the call is recorded and its error returned. -/
def Bot.Send (bot : Bot) (sent : List SendRecord) (recipient : Int) (what : Bytes) :
    List SendRecord × Option GoError :=
  let err := bot.respond sent recipient what
  (sent ++ [⟨recipient, what, err⟩], err)

/-- Lines 79-81: `if len(errorMessage) > 4000 { errorMessage = errorMessage[:4000] }`, on
the bytes of the string. -/
def sendErrorMessages.cut (errorMessage : String) : Bytes :=
  if (goBytes errorMessage).length > 4000 then (goBytes errorMessage).take 4000
  else goBytes errorMessage

/-- The loop of lines 76-86 over the error messages. -/
def sendErrorMessages.loop (bot : Bot) (recipient : Int) (sent : List SendRecord) :
    List String → List SendRecord × Option GoError
  | [] => (sent, none)
  | errorMessage :: rest =>
    let errorMessage := sendErrorMessages.cut errorMessage
    match bot.Send sent recipient errorMessage with
    | (sent, some err) => (sent, some err)
    | (sent, none) => sendErrorMessages.loop bot recipient sent rest

/-- Function `sendErrorMessages(errorMessages, bot, recipient)`, with the record of the
`bot.Send` calls threaded through. -/
def sendErrorMessages (errorMessages : List String) (bot : Bot) (recipient : Int)
    (sent : List SendRecord) : List SendRecord × Option GoError :=
  match bot.Send sent recipient
      (goBytes (fmt.Sprintf "Found %d errors" [toString errorMessages.length])) with
  | (sent, some err) => (sent, some err)
  | (sent, none) => sendErrorMessages.loop bot recipient sent errorMessages

/-! ## The poll loop of `main` (main.go lines 32-51) -/

/-- Go's `time.Minute`, in nanoseconds. -/
def time.Minute : Int := 60 * 1000000000

/-- Go's `time.Hour`, in nanoseconds. -/
def time.Hour : Int := 60 * time.Minute

/-- The values `main` computes before the loop (lines 20-30). -/
structure Config where
  checkInterval : Int
  maximumAge : Int
  jaegerAddr : String
  serviceName : String
  recipientChatId : Int
  bot : Bot

/-- What the outside world contributes to one iteration of the loop: the three readings
of `time.Now()` (lines 34, 47, 48) and the tracing backend as it answers in this
iteration. -/
structure TickEnv where
  now34 : Int
  jaeger : Jaeger
  now47 : Int
  now48 : Int

/-- The state carried from one iteration to the next: the variable `lastStartTime` and
the record of all `bot.Send` calls made so far. -/
structure LoopState where
  lastStartTime : Int
  sent : List SendRecord
deriving DecidableEq, Repr

/-- Line 32: `lastStartTime := time.Now().Add(-maximumAge)`. -/
def main.init (cfg : Config) (now32 : Int) : LoopState :=
  ⟨now32 + -cfg.maximumAge, []⟩

/-- Lines 34-46: query, notify, commit. -/
def main.poll (cfg : Config) (env : TickEnv) (st : LoopState) : LoopState :=
  let nextStartTime := env.now34
  match getErrorMessages env.jaeger cfg.jaegerAddr st.lastStartTime cfg.serviceName with
  | (_, some _) => st
  | (errors, none) =>
    let sent :=
      if errors.length > 0 then (sendErrorMessages errors cfg.bot cfg.recipientChatId st.sent).1
      else st.sent
    ⟨nextStartTime, sent⟩

/-- Lines 47-49: the max-age clamp on `lastStartTime`. -/
def main.clamp (cfg : Config) (env : TickEnv) (st : LoopState) : LoopState :=
  if st.lastStartTime < env.now47 + -cfg.maximumAge then
    ⟨env.now48 + -cfg.maximumAge, st.sent⟩
  else st

/-- One iteration of the `for` loop, lines 34-49 (line 50 sleeps). -/
def main.tick (cfg : Config) (env : TickEnv) (st : LoopState) : LoopState :=
  main.clamp cfg env (main.poll cfg env st)

/-- The loop run over finitely many iterations. -/
def main.run (cfg : Config) (st : LoopState) : List TickEnv → LoopState
  | [] => st
  | env :: rest => main.run cfg (main.tick cfg env st) rest

/-- The clock never goes back: every reading of `time.Now()` is at least the one before
it, starting from the reading `prev`. -/
def clockOK (prev : Int) : List TickEnv → Bool
  | [] => true
  | env :: rest =>
    decide (prev ≤ env.now34) && decide (env.now34 ≤ env.now47) &&
      decide (env.now47 ≤ env.now48) && clockOK env.now48 rest

/-- Line 50, `time.Sleep(checkInterval)`: between the last clock reading of an iteration
and the first reading of the next one at least `checkInterval` passes. -/
def sleepOK (checkInterval : Int) : List TickEnv → Bool
  | env :: next :: rest =>
    decide (env.now48 + checkInterval ≤ next.now34) && sleepOK checkInterval (next :: rest)
  | _ => true

/-- The clock reading of the most recent max-age check (line 47) before the iteration
that follows `done`; before the first iteration it is the reading of line 32. -/
def lastCheck (now32 : Int) : List TickEnv → Int
  | [] => now32
  | env :: rest => lastCheck env.now47 rest

/-! ## The specification's reading of the classifier -/

/-- Spec 4.3: a log event is an error if any field has key `level` and a value that is
one of the upper/lower-case spellings of `error`. -/
def Spec.isErrorEvent (log : Log) : Prop :=
  ∃ field ∈ log.Fields, field.Key = "level" ∧
    ∃ c1 c2 c3 c4 c5 : Char, field.VStr = ⟨[c1, c2, c3, c4, c5]⟩ ∧
      (c1 = 'e' ∨ c1 = 'E') ∧ (c2 = 'r' ∨ c2 = 'R') ∧ (c3 = 'r' ∨ c3 = 'R') ∧
      (c4 = 'o' ∨ c4 = 'O') ∧ (c5 = 'r' ∨ c5 = 'R')

/-- Spec 4.5 step 4: the log events of a query result that the `isError` loop classifies
as errors, each with its span, in chunk order, span order and then log-event order. -/
def Spec.errorEvents (chunks : List SpansResponseChunk) : List (Span × Log) :=
  chunks.flatMap fun res =>
    res.Spans.flatMap fun span =>
      (span.Logs.filter fun log => getErrorMessages.isError log.Fields).map fun log => (span, log)

/-- The value a key has in a list of key/value pairs according to the specification's
words "first match wins". -/
def Spec.firstValue (key : String) : List KeyValue → String
  | [] => ""
  | kv :: rest => if kv.Key = key then kv.VStr else Spec.firstValue key rest

/-- The value of the last pair with the given key (the first one met when the list is
read from its end), the empty string if there is none. -/
def lastValue (key : String) (kvs : List KeyValue) : String :=
  Spec.firstValue key kvs.reverse

/-- The specification's "value of the pair with key `key`, empty string if absent",
without a choice among several pairs with that key. -/
def Spec.IsValueOf (key : String) (kvs : List KeyValue) (v : String) : Prop :=
  (∃ kv ∈ kvs, kv.Key = key ∧ kv.VStr = v) ∨ ((∀ kv ∈ kvs, kv.Key ≠ key) ∧ v = "")

/-- The text layout of spec 4.3 for given parts. -/
def Spec.render (operation namespace_ traceId target event message : String) : String :=
  "Error occured!\n\nParent: " ++ operation ++ " (" ++ namespace_ ++ ")\nTrace: " ++ traceId ++
    "\n\nTarget: " ++ target ++ "\n\n" ++ event ++ "\n" ++ message

/-- Spec 4.4, "sending stops and surfaces the first transport error encountered": the
texts are handed to `bot.Send` one after the other until a call fails. -/
def Spec.sendInOrder (bot : Bot) (recipient : Int) (sent : List SendRecord) :
    List Bytes → List SendRecord × Option GoError
  | [] => (sent, none)
  | text :: rest =>
    match bot.respond sent recipient text with
    | some err => (sent ++ [⟨recipient, text, some err⟩], some err)
    | none => Spec.sendInOrder bot recipient (sent ++ [⟨recipient, text, none⟩]) rest

/-- The texts `sendErrorMessages` is to send for the given findings: the summary and then
each finding, cut to 4000 bytes. -/
def Spec.outbox (errorMessages : List String) : List Bytes :=
  goBytes ("Found " ++ toString errorMessages.length ++ " errors") ::
    errorMessages.map sendErrorMessages.cut

/-- Spec 4.4 and section 8 on the order of sends, as a property of the calls `new` that
one run of the notifier added for the texts `texts`, and of the error `result` it returned:
the calls are an initial segment of `texts`, in order, all to `recipient`, each answered by
the bot; either all texts were sent and delivered and no error is returned, or the last
call is the only failed one and its error is returned. -/
def Spec.SentInOrder (bot : Bot) (recipient : Int) (sent : List SendRecord)
    (texts : List Bytes) (new : List SendRecord) (result : Option GoError) : Prop :=
  new.map (fun r => r.what) = texts.take new.length ∧
  (∀ r ∈ new, r.recipient = recipient) ∧
  (∀ i r, new[i]? = some r → r.err = bot.respond (sent ++ new.take i) recipient r.what) ∧
  ((result = none ∧ new.length = texts.length ∧ ∀ r ∈ new, r.err = none) ∨
   (∃ before r e, new = before ++ [r] ∧ r.err = some e ∧ result = some e ∧
      ∀ p ∈ before, p.err = none))

/-! ## Concrete inputs used by the examples below -/

/-- The span of the specification's rendering example (spec section 8), with the trace
id whose hexadecimal digits are `abc`. -/
def exampleSpan : Span :=
  ⟨"op", ⟨0, 0xabc⟩, [⟨"code.namespace", "ns"⟩], []⟩

/-- The log event of the specification's rendering example. -/
def exampleLog : Log :=
  ⟨[⟨"event", "E"⟩, ⟨"target", "T"⟩, ⟨"exception.message", "M"⟩]⟩

/-- A span with two `code.namespace` tags. -/
def repeatedSpan : Span :=
  ⟨"op", ⟨0, 0xabc⟩, [⟨"code.namespace", "ns1"⟩, ⟨"code.namespace", "ns2"⟩], []⟩

/-- A log event in which `event`, `target` and `exception.message` each occur twice. -/
def repeatedLog : Log :=
  ⟨[⟨"event", "E1"⟩, ⟨"target", "T1"⟩, ⟨"exception.message", "M1"⟩,
    ⟨"event", "E2"⟩, ⟨"target", "T2"⟩, ⟨"exception.message", "M2"⟩]⟩

/-- A text of 3000 characters, each the two-byte letter U+00E9: 6000 bytes. -/
def accentedText : String :=
  ⟨List.replicate 3000 (Char.ofNat 233)⟩

/-- A text of 5000 characters, each the one-byte letter `a`. -/
def longAsciiText : String :=
  ⟨List.replicate 5000 'a'⟩

/-- A bot whose every `Send` succeeds. -/
def deliveringBot : Bot :=
  ⟨fun _ _ _ => none⟩

/-- A bot whose every `Send` fails. -/
def failingBot : Bot :=
  ⟨fun _ _ _ => some "telegram: unreachable"⟩

/-- A configuration: check every minute, maximum age one hour. -/
def sampleConfig (bot : Bot) : Config :=
  ⟨1 * time.Minute, 1 * time.Hour, "jaeger:16685", "shop", 42, bot⟩

/-- A configuration whose `MAXIMUM_AGE_HOURS` is `-1`. -/
def negativeAgeConfig : Config :=
  ⟨1 * time.Minute, -1 * time.Hour, "jaeger:16685", "shop", 42, deliveringBot⟩

/-- A log event classified as an error. -/
def errorLog : Log :=
  ⟨[⟨"level", "ERROR"⟩, ⟨"event", "E"⟩, ⟨"target", "T"⟩, ⟨"exception.message", "M"⟩]⟩

/-- A log event with two fields that both say `level=error`. -/
def doubleErrorLog : Log :=
  ⟨[⟨"level", "error"⟩, ⟨"level", "Error"⟩]⟩

/-- A log event that is not an error. -/
def infoLog : Log :=
  ⟨[⟨"level", "info"⟩, ⟨"event", "started"⟩]⟩

/-- Two spans carrying three error-classified log events between them. -/
def twoSpans : List SpansResponseChunk :=
  [⟨[⟨"checkout", ⟨0, 0xa1⟩, [⟨"code.namespace", "shop"⟩], [errorLog, infoLog, errorLog]⟩]⟩,
   ⟨[⟨"payment", ⟨0, 0xb2⟩, [], [doubleErrorLog]⟩]⟩]

/-- A backend whose stream ends normally after the chunks of `twoSpans`. -/
def healthyJaeger : Jaeger :=
  fun _ _ _ => .stream twoSpans none

/-- A backend whose stream breaks after the chunks of `twoSpans` were received. -/
def breakingJaeger : Jaeger :=
  fun _ _ _ => .stream twoSpans (some "rpc error: stream reset")

/-- A backend that cannot be reached. -/
def unreachableJaeger : Jaeger :=
  fun _ _ _ => .dialError "dial tcp: connection refused"

/-- The state at the start of an iteration in which nothing was sent yet and the window
starts at time 0. -/
def freshState : LoopState :=
  ⟨0, []⟩

/-- An iteration starting at 100 ns in which the backend answers with `twoSpans`. -/
def healthyTick : TickEnv :=
  ⟨100, healthyJaeger, 200, 200⟩

/-- An iteration starting at 100 ns in which the stream breaks. -/
def breakingTick : TickEnv :=
  ⟨100, breakingJaeger, 200, 200⟩

/-- A first iteration of a run started at time 0 in which the stream breaks after five
seconds. -/
def slowBreakingTick : TickEnv :=
  ⟨0, breakingJaeger, 5000000000, 5000000000⟩

/-- The first iteration of a run started at time 0: the backend is unreachable and the
failed attempt takes five seconds. -/
def failedFirstTick : TickEnv :=
  ⟨0, unreachableJaeger, 5000000000, 5000000000⟩

/-- A first iteration at time 0 with an unreachable backend that fails at once. -/
def instantFailedTick : TickEnv :=
  ⟨0, unreachableJaeger, 0, 0⟩

/-- The second iteration, one check interval (a minute) after `instantFailedTick`. -/
def secondTick : TickEnv :=
  ⟨1 * time.Minute, healthyJaeger, 1 * time.Minute, 1 * time.Minute⟩

/-! ## Lemmas: strings -/

theorem sprintf_message (a b c d e f : String) :
    fmt.Sprintf "Error occured!\n\nParent: %s (%s)\nTrace: %s\n\nTarget: %s\n\n%s\n%s"
      [a, b, c, d, e, f] = Spec.render a b c d e f := by
  apply String.ext
  simp [fmt.Sprintf, fmt.Sprintf.go, Spec.render]

theorem sprintf_found (n : String) :
    fmt.Sprintf "Found %d errors" [n] = "Found " ++ n ++ " errors" := by
  apply String.ext
  simp [fmt.Sprintf, fmt.Sprintf.go]

theorem toLower_letters (c : Char) :
    (Char.toLower c = 'e' ↔ c = 'e' ∨ c = 'E') ∧ (Char.toLower c = 'r' ↔ c = 'r' ∨ c = 'R') ∧
      (Char.toLower c = 'o' ↔ c = 'o' ∨ c = 'O') := by
  have back : ∀ l u : Char, Char.toLower l = l → Char.toLower u = l →
      (c = l ∨ c = u) → Char.toLower c = l := by
    rintro l u hl hu (h | h) <;> subst h <;> assumption
  have fwd : ∀ l u : Char, (∀ n : Nat, 65 ≤ n → n ≤ 90 → Char.ofNat (n + 32) = l →
      Char.ofNat n = u) → Char.toLower c = l → (c = l ∨ c = u) := by
    intro l u hn h
    unfold Char.toLower at h
    simp only at h
    split at h
    · rename_i hc
      right
      have hcc : c = Char.ofNat c.toNat := by simp
      rw [hcc]
      exact hn c.toNat hc.1 hc.2 h
    · left; exact h
  refine ⟨⟨fwd _ _ ?_, back _ _ (by decide) (by decide)⟩,
    ⟨fwd _ _ ?_, back _ _ (by decide) (by decide)⟩,
    ⟨fwd _ _ ?_, back _ _ (by decide) (by decide)⟩⟩ <;>
  · intro n h1 h2
    interval_cases n <;> decide

theorem toLower_eq_error (s : String) :
    strings.ToLower s = "error" ↔
      ∃ c1 c2 c3 c4 c5 : Char, s = ⟨[c1, c2, c3, c4, c5]⟩ ∧
        (c1 = 'e' ∨ c1 = 'E') ∧ (c2 = 'r' ∨ c2 = 'R') ∧ (c3 = 'r' ∨ c3 = 'R') ∧
        (c4 = 'o' ∨ c4 = 'O') ∧ (c5 = 'r' ∨ c5 = 'R') := by
  have he := fun c => (toLower_letters c).1
  have hr := fun c => (toLower_letters c).2.1
  have ho := fun c => (toLower_letters c).2.2
  have hs : strings.ToLower s = "error" ↔ s.data.map Char.toLower = ['e', 'r', 'r', 'o', 'r'] := by
    unfold strings.ToLower
    constructor
    · intro h
      exact congrArg String.data h
    · intro h
      exact String.ext h
  rw [hs]
  obtain ⟨l⟩ := s
  constructor
  · intro h
    have hlen := congrArg List.length h
    simp only [List.length_map, List.length_cons, List.length_nil] at hlen
    match l, hlen, h with
    | [c1, c2, c3, c4, c5], _, h =>
      simp only [List.map, List.cons.injEq, and_true] at h
      exact ⟨c1, c2, c3, c4, c5, rfl, (he c1).1 h.1, (hr c2).1 h.2.1, (hr c3).1 h.2.2.1,
        (ho c4).1 h.2.2.2.1, (hr c5).1 h.2.2.2.2⟩
  · rintro ⟨c1, c2, c3, c4, c5, hl, h1, h2, h3, h4, h5⟩
    cases hl
    simp only [List.map, List.cons.injEq, and_true]
    exact ⟨(he c1).2 h1, (hr c2).2 h2, (hr c3).2 h3, (ho c4).2 h4, (hr c5).2 h5⟩

/-! ## Lemmas: the classifier and the renderer -/

theorem hex16_length (n : Nat) : 16 ≤ (fmt.hex16 n).length := by
  show 16 ≤ (List.replicate (16 - (Nat.toDigits 16 n).length) '0' ++ Nat.toDigits 16 n).length
  rw [List.length_append, List.length_replicate]
  omega

theorem traceID_String_length (t : TraceID) : 16 ≤ t.String.length := by
  unfold TraceID.String
  split
  · exact hex16_length t.Low
  · rw [String.length_append]
    have := hex16_length t.High
    omega

theorem firstValue_append (key : String) (a b : List KeyValue) :
    Spec.firstValue key (a ++ b) =
      if a.any (fun kv => kv.Key = key) then Spec.firstValue key a else Spec.firstValue key b := by
  induction a with
  | nil => simp
  | cons kv rest ih =>
    by_cases h : kv.Key = key <;> simp [Spec.firstValue, h, ih]

theorem lastValue_cons (key : String) (kv : KeyValue) (rest : List KeyValue) :
    lastValue key (kv :: rest) =
      if rest.any (fun kv2 => kv2.Key = key) then lastValue key rest
      else if kv.Key = key then kv.VStr else "" := by
  unfold lastValue
  rw [List.reverse_cons, firstValue_append]
  simp [Spec.firstValue]

theorem tagLoop_eq (key0 : String) (hk : key0 = "code.namespace") (kvs : List KeyValue) :
    ∀ init, createErrorMessage.tagLoop init kvs =
      if kvs.any (fun kv => kv.Key = key0) then lastValue key0 kvs else init := by
  subst hk
  induction kvs with
  | nil => intro init; simp [createErrorMessage.tagLoop]
  | cons kv rest ih =>
    intro init
    rw [createErrorMessage.tagLoop, ih, lastValue_cons]
    by_cases h1 : rest.any (fun kv2 => kv2.Key = "code.namespace") <;>
      by_cases h2 : kv.Key = "code.namespace" <;> simp [h1, h2]

theorem lastValue_absent (key : String) (kvs : List KeyValue)
    (h : kvs.any (fun kv => kv.Key = key) = false) : lastValue key kvs = "" := by
  induction kvs with
  | nil => rfl
  | cons kv rest ih =>
    simp only [List.any_cons, Bool.or_eq_false_iff, decide_eq_false_iff_not] at h
    rw [lastValue_cons, h.2, ih h.2]
    simp [h.1]

theorem fieldLoop_eq (kvs : List KeyValue) :
    ∀ event target message, createErrorMessage.fieldLoop event target message kvs =
      (if kvs.any (fun kv => kv.Key = "event") then lastValue "event" kvs else event,
       if kvs.any (fun kv => kv.Key = "target") then lastValue "target" kvs else target,
       if kvs.any (fun kv => kv.Key = "exception.message") then
         lastValue "exception.message" kvs else message) := by
  induction kvs with
  | nil => intro e t m; simp [createErrorMessage.fieldLoop]
  | cons kv rest ih =>
    intro e t m
    rw [createErrorMessage.fieldLoop]
    simp only [ih, lastValue_cons, List.any_cons]
    refine Prod.ext ?_ (Prod.ext ?_ ?_)
    · by_cases h1 : rest.any (fun kv2 => kv2.Key = "event") <;>
        by_cases h2 : kv.Key = "event" <;> simp [h1, h2]
    · by_cases h1 : rest.any (fun kv2 => kv2.Key = "target") <;>
        by_cases h2 : kv.Key = "target" <;> simp [h1, h2]
    · by_cases h1 : rest.any (fun kv2 => kv2.Key = "exception.message") <;>
        by_cases h2 : kv.Key = "exception.message" <;> simp [h1, h2]

theorem ite_any_lastValue (key : String) (kvs : List KeyValue) :
    (if kvs.any (fun kv => kv.Key = key) then lastValue key kvs else "") = lastValue key kvs := by
  by_cases h : kvs.any (fun kv => kv.Key = key)
  · rw [if_pos h]
  · rw [if_neg h, lastValue_absent key kvs (by simpa using h)]

theorem createErrorMessage_eq_render (span : Span) (log : Log) :
    createErrorMessage span log =
      Spec.render span.OperationName (lastValue "code.namespace" span.Tags) span.TraceID.String
        (lastValue "target" log.Fields) (lastValue "event" log.Fields)
        (lastValue "exception.message" log.Fields) := by
  unfold createErrorMessage
  simp only [fieldLoop_eq, tagLoop_eq "code.namespace" rfl, ite_any_lastValue, sprintf_message]

theorem firstValue_isValueOf (key : String) (kvs : List KeyValue) :
    Spec.IsValueOf key kvs (Spec.firstValue key kvs) := by
  induction kvs with
  | nil => right; simp [Spec.firstValue]
  | cons kv rest ih =>
    by_cases h : kv.Key = key
    · left
      exact ⟨kv, List.mem_cons_self _ _, h, by simp [Spec.firstValue, h]⟩
    · rcases ih with ⟨kv2, hm, hk, hv⟩ | ⟨hno, hv⟩
      · left
        exact ⟨kv2, List.mem_cons_of_mem _ hm, hk, by simp [Spec.firstValue, h, hv]⟩
      · right
        refine ⟨?_, by simp [Spec.firstValue, h, hv]⟩
        intro kv2 hm
        rcases List.mem_cons.1 hm with rfl | hm
        · exact h
        · exact hno kv2 hm

theorem lastValue_isValueOf (key : String) (kvs : List KeyValue) :
    Spec.IsValueOf key kvs (lastValue key kvs) := by
  rcases firstValue_isValueOf key kvs.reverse with ⟨kv, hm, hk, hv⟩ | ⟨hno, hv⟩
  · left
    exact ⟨kv, List.mem_reverse.1 hm, hk, hv⟩
  · right
    exact ⟨fun kv hm => hno kv (List.mem_reverse.2 hm), hv⟩

theorem isError_iff (fields : List KeyValue) :
    getErrorMessages.isError fields = true ↔
      ∃ field ∈ fields, field.Key = "level" ∧ strings.ToLower field.VStr = "error" := by
  induction fields with
  | nil => simp [getErrorMessages.isError]
  | cons field rest ih =>
    rw [getErrorMessages.isError]
    by_cases h : field.Key = "level" ∧ strings.ToLower field.VStr = "error"
    · rw [if_pos h]
      simp only [true_iff]
      exact ⟨field, List.mem_cons_self _ _, h⟩
    · rw [if_neg h, ih]
      constructor
      · rintro ⟨f, hm, hf⟩
        exact ⟨f, List.mem_cons_of_mem _ hm, hf⟩
      · rintro ⟨f, hm, hf⟩
        rcases List.mem_cons.1 hm with rfl | hm
        · exact absurd hf h
        · exact ⟨f, hm, hf⟩

theorem logLoop_eq (span : Span) (logs : List Log) :
    ∀ errors, getErrorMessages.logLoop span errors logs =
      errors ++ (logs.filter fun log => getErrorMessages.isError log.Fields).map
        (createErrorMessage span) := by
  induction logs with
  | nil => intro errors; simp [getErrorMessages.logLoop]
  | cons log rest ih =>
    intro errors
    rw [getErrorMessages.logLoop]
    simp only [ih]
    by_cases h : getErrorMessages.isError log.Fields = true
    · simp [h]
    · simp [h]

theorem spanLoop_eq (spans : List Span) :
    ∀ errors, getErrorMessages.spanLoop errors spans =
      errors ++ (Spec.errorEvents [⟨spans⟩]).map fun p => createErrorMessage p.1 p.2 := by
  induction spans with
  | nil => intro errors; simp [getErrorMessages.spanLoop, Spec.errorEvents]
  | cons span rest ih =>
    intro errors
    rw [getErrorMessages.spanLoop, ih, logLoop_eq]
    simp [Spec.errorEvents, List.map_flatMap, Function.comp_def]

theorem recvLoop_eq (last : Option GoError) (chunks : List SpansResponseChunk) :
    ∀ errors, getErrorMessages.recvLoop last errors chunks =
      (errors ++ (Spec.errorEvents chunks).map fun p => createErrorMessage p.1 p.2, last) := by
  induction chunks with
  | nil => intro errors; cases last <;> simp [getErrorMessages.recvLoop, Spec.errorEvents]
  | cons res rest ih =>
    intro errors
    rw [getErrorMessages.recvLoop, ih, spanLoop_eq]
    simp [Spec.errorEvents]

theorem getErrorMessages_stream (jaeger : Jaeger) (serverAddr : String) (startTime : Int)
    (serviceName : String) (chunks : List SpansResponseChunk) (last : Option GoError)
    (h : jaeger serverAddr startTime serviceName = .stream chunks last) :
    getErrorMessages jaeger serverAddr startTime serviceName =
      ((Spec.errorEvents chunks).map fun p => createErrorMessage p.1 p.2, last) := by
  unfold getErrorMessages
  rw [h]
  simp [recvLoop_eq]

/-! ## Lemmas: the notifier -/

theorem loop_eq_sendInOrder (bot : Bot) (recipient : Int) (errorMessages : List String) :
    ∀ sent, sendErrorMessages.loop bot recipient sent errorMessages =
      Spec.sendInOrder bot recipient sent (errorMessages.map sendErrorMessages.cut) := by
  induction errorMessages with
  | nil => intro sent; rfl
  | cons m rest ih =>
    intro sent
    simp only [sendErrorMessages.loop, Bot.Send, List.map_cons, Spec.sendInOrder]
    cases h : bot.respond sent recipient (sendErrorMessages.cut m) with
    | none => simp only [ih]
    | some err => rfl

theorem sendErrorMessages_eq_sendInOrder (errorMessages : List String) (bot : Bot)
    (recipient : Int) (sent : List SendRecord) :
    sendErrorMessages errorMessages bot recipient sent =
      Spec.sendInOrder bot recipient sent (Spec.outbox errorMessages) := by
  simp only [sendErrorMessages, Bot.Send, Spec.outbox, Spec.sendInOrder, sprintf_found]
  cases h : bot.respond sent recipient
      (goBytes ("Found " ++ toString errorMessages.length ++ " errors")) with
  | none => simp only [loop_eq_sendInOrder]
  | some err => rfl

theorem sendInOrder_spec (bot : Bot) (recipient : Int) (texts : List Bytes) :
    ∀ sent, ∃ new, (Spec.sendInOrder bot recipient sent texts).1 = sent ++ new ∧
      Spec.SentInOrder bot recipient sent texts new
        (Spec.sendInOrder bot recipient sent texts).2 := by
  induction texts with
  | nil =>
    intro sent
    refine ⟨[], by simp [Spec.sendInOrder], by simp, by simp, by simp, Or.inl ?_⟩
    simp [Spec.sendInOrder]
  | cons text rest ih =>
    intro sent
    rw [Spec.sendInOrder]
    cases h : bot.respond sent recipient text with
    | some err =>
      refine ⟨[⟨recipient, text, some err⟩], rfl, by simp, by simp, ?_, Or.inr ?_⟩
      · intro i r hr
        match i, hr with
        | 0, hr =>
          simp only [List.getElem?_cons_zero, Option.some.injEq] at hr
          subst hr
          simp [h]
      · exact ⟨[], _, err, rfl, rfl, rfl, by simp⟩
    | none =>
      obtain ⟨new, h1, h2, h3, h4, h5⟩ := ih (sent ++ [⟨recipient, text, none⟩])
      refine ⟨⟨recipient, text, none⟩ :: new, by simp [h1], by simp [h2], ?_, ?_, ?_⟩
      · intro r hr
        rcases List.mem_cons.1 hr with rfl | hr
        · rfl
        · exact h3 r hr
      · intro i r hr
        match i, hr with
        | 0, hr =>
          simp only [List.getElem?_cons_zero, Option.some.injEq] at hr
          subst hr
          simp [h]
        | i + 1, hr =>
          simp only [List.getElem?_cons_succ] at hr
          have := h4 i r hr
          simpa using this
      · rcases h5 with ⟨e1, e2, e3⟩ | ⟨before, r, e, e1, e2, e3, e4⟩
        · left
          refine ⟨e1, by simp [e2], ?_⟩
          intro r hr
          rcases List.mem_cons.1 hr with rfl | hr
          · rfl
          · exact e3 r hr
        · right
          refine ⟨⟨recipient, text, none⟩ :: before, r, e, by simp [e1], e2, e3, ?_⟩
          intro p hp
          rcases List.mem_cons.1 hp with rfl | hp
          · rfl
          · exact e4 p hp

theorem sendInOrder_allDelivered (bot : Bot) (recipient : Int)
    (hbot : ∀ sent r text, bot.respond sent r text = none) (texts : List Bytes) :
    ∀ sent, Spec.sendInOrder bot recipient sent texts =
      (sent ++ texts.map (fun text => ⟨recipient, text, none⟩), none) := by
  induction texts with
  | nil => intro sent; simp [Spec.sendInOrder]
  | cons text rest ih =>
    intro sent
    rw [Spec.sendInOrder, hbot, ih]
    simp

/-! ## Lemmas: bytes of a string -/

theorem goBytes_eq (s : String) : goBytes s = s.data.flatMap String.utf8EncodeChar := rfl

theorem goBytes_replicate_length (n : Nat) (c : Char) :
    (goBytes ⟨List.replicate n c⟩).length = n * c.utf8Size := by
  rw [goBytes_eq]
  induction n with
  | zero => simp
  | succ n ih =>
    simp only [List.replicate_succ, List.flatMap_cons, List.length_append, ih,
      String.length_utf8EncodeChar]
    ring

theorem utf8Size_ascii (c : Char) (h : c.toNat < 128) : c.utf8Size = 1 := by
  have hv : c.val.toNat < 128 := h
  unfold Char.utf8Size
  have : c.val ≤ UInt32.ofNatCore 127 (by decide) := by
    rw [UInt32.le_def]
    show c.val.toNat ≤ 127
    omega
  simp only [this, if_true]

theorem flatMap_take_of_length_one {α β : Type} (f : α → List β) (k : Nat) :
    ∀ l : List α, (∀ x ∈ l, (f x).length = 1) →
      (l.flatMap f).length = l.length ∧ (l.flatMap f).take k = (l.take k).flatMap f := by
  induction k with
  | zero =>
    intro l hl
    refine ⟨?_, by simp⟩
    induction l with
    | nil => rfl
    | cons x rest ih =>
      simp only [List.flatMap_cons, List.length_append, List.length_cons]
      rw [hl x (List.mem_cons_self _ _), ih (fun y hy => hl y (List.mem_cons_of_mem _ hy))]
      omega
  | succ k ihk =>
    intro l hl
    match l, hl with
    | [], _ => simp
    | x :: rest, hl =>
      have hx := hl x (List.mem_cons_self _ _)
      have hrest := ihk rest (fun y hy => hl y (List.mem_cons_of_mem _ hy))
      obtain ⟨b, hb⟩ := List.length_eq_one.1 hx
      simp only [List.flatMap_cons, hb, List.singleton_append, List.length_cons, List.take_succ_cons,
        hrest.1, hrest.2, and_self]

theorem cut_eq_take (s : String) : sendErrorMessages.cut s = (goBytes s).take 4000 := by
  unfold sendErrorMessages.cut
  split
  · rfl
  · rw [List.take_of_length_le (by omega)]

/-! ## Lemmas: the poll loop -/

theorem poll_of_query_error (cfg : Config) (env : TickEnv) (st : LoopState)
    (h : (getErrorMessages env.jaeger cfg.jaegerAddr st.lastStartTime cfg.serviceName).2 ≠ none) :
    main.poll cfg env st = st := by
  unfold main.poll
  generalize getErrorMessages env.jaeger cfg.jaegerAddr st.lastStartTime cfg.serviceName = q at h
  obtain ⟨errors, err⟩ := q
  cases err with
  | none => exact absurd rfl h
  | some e => rfl

theorem poll_of_query_ok (cfg : Config) (env : TickEnv) (st : LoopState)
    (h : (getErrorMessages env.jaeger cfg.jaegerAddr st.lastStartTime cfg.serviceName).2 = none) :
    main.poll cfg env st =
      ⟨env.now34,
        if (getErrorMessages env.jaeger cfg.jaegerAddr st.lastStartTime cfg.serviceName).1.length > 0
        then (sendErrorMessages
          (getErrorMessages env.jaeger cfg.jaegerAddr st.lastStartTime cfg.serviceName).1
          cfg.bot cfg.recipientChatId st.sent).1
        else st.sent⟩ := by
  unfold main.poll
  generalize getErrorMessages env.jaeger cfg.jaegerAddr st.lastStartTime cfg.serviceName = q at h
  obtain ⟨errors, err⟩ := q
  cases err with
  | none => rfl
  | some e => cases h

theorem poll_lastStartTime (cfg : Config) (env : TickEnv) (st : LoopState) :
    (main.poll cfg env st).lastStartTime = st.lastStartTime ∨
      (main.poll cfg env st).lastStartTime = env.now34 := by
  cases h : (getErrorMessages env.jaeger cfg.jaegerAddr st.lastStartTime cfg.serviceName).2 with
  | none => right; rw [poll_of_query_ok cfg env st h]
  | some e => left; rw [poll_of_query_error cfg env st (by simp [h])]

theorem clamp_lastStartTime (cfg : Config) (env : TickEnv) (st : LoopState) :
    (main.clamp cfg env st).lastStartTime =
      if st.lastStartTime < env.now47 - cfg.maximumAge then env.now48 - cfg.maximumAge
      else st.lastStartTime := by
  unfold main.clamp
  rw [← Int.sub_eq_add_neg, ← Int.sub_eq_add_neg]
  split <;> rfl

theorem clamp_sent (cfg : Config) (env : TickEnv) (st : LoopState) :
    (main.clamp cfg env st).sent = st.sent := by
  unfold main.clamp
  split <;> rfl

theorem clamp_raises (cfg : Config) (env : TickEnv) (st : LoopState)
    (h : env.now47 ≤ env.now48) : st.lastStartTime ≤ (main.clamp cfg env st).lastStartTime := by
  rw [clamp_lastStartTime]
  split <;> omega

theorem clockOK_cons (c : Int) (env : TickEnv) (rest : List TickEnv) :
    clockOK c (env :: rest) = true ↔
      c ≤ env.now34 ∧ env.now34 ≤ env.now47 ∧ env.now47 ≤ env.now48 ∧
        clockOK env.now48 rest = true := by
  simp [clockOK, and_assoc]

theorem tick_invariant (cfg : Config) (env : TickEnv) (st : LoopState) (c : Int)
    (h1 : c ≤ env.now34) (h2 : env.now34 ≤ env.now47) (h3 : env.now47 ≤ env.now48)
    (hst : st.lastStartTime ≤ c ∨ st.lastStartTime ≤ c - cfg.maximumAge) :
    st.lastStartTime ≤ (main.tick cfg env st).lastStartTime ∧
      ((main.tick cfg env st).lastStartTime ≤ env.now48 ∨
        (main.tick cfg env st).lastStartTime ≤ env.now48 - cfg.maximumAge) := by
  unfold main.tick
  rw [clamp_lastStartTime]
  rcases poll_lastStartTime cfg env st with hp | hp <;> rw [hp] <;> split <;> omega

theorem tick_window (cfg : Config) (env : TickEnv) (st : LoopState) (c : Int)
    (hage : 0 ≤ cfg.maximumAge)
    (h1 : c ≤ env.now34) (h2 : env.now34 ≤ env.now47) (h3 : env.now47 ≤ env.now48)
    (hst : st.lastStartTime ≤ c) :
    (main.tick cfg env st).lastStartTime ≤ env.now48 ∧
      env.now47 - cfg.maximumAge ≤ (main.tick cfg env st).lastStartTime := by
  unfold main.tick
  rw [clamp_lastStartTime]
  rcases poll_lastStartTime cfg env st with hp | hp <;> rw [hp] <;> split <;> omega

theorem run_monotone (cfg : Config) (env : TickEnv) (post : List TickEnv) :
    ∀ (done : List TickEnv) (st : LoopState) (c : Int),
      clockOK c (done ++ env :: post) = true →
      (st.lastStartTime ≤ c ∨ st.lastStartTime ≤ c - cfg.maximumAge) →
      (main.run cfg st done).lastStartTime ≤
        (main.tick cfg env (main.run cfg st done)).lastStartTime := by
  intro done
  induction done with
  | nil =>
    intro st c hc hst
    rw [List.nil_append, clockOK_cons] at hc
    exact (tick_invariant cfg env st c hc.1 hc.2.1 hc.2.2.1 hst).1
  | cons e rest ih =>
    intro st c hc hst
    rw [List.cons_append, clockOK_cons] at hc
    rw [main.run]
    exact ih _ e.now48 hc.2.2.2 (tick_invariant cfg e st c hc.1 hc.2.1 hc.2.2.1 hst).2

theorem run_window (cfg : Config) (hage : 0 ≤ cfg.maximumAge) (env : TickEnv)
    (post : List TickEnv) :
    ∀ (done : List TickEnv) (st : LoopState) (c chk : Int),
      clockOK c (done ++ env :: post) = true →
      st.lastStartTime ≤ c → chk - cfg.maximumAge ≤ st.lastStartTime →
      (main.run cfg st done).lastStartTime ≤ env.now34 ∧
        lastCheck chk done - cfg.maximumAge ≤ (main.run cfg st done).lastStartTime := by
  intro done
  induction done with
  | nil =>
    intro st c chk hc hst hchk
    rw [List.nil_append, clockOK_cons] at hc
    exact ⟨by rw [main.run]; omega, by rw [main.run, lastCheck]; exact hchk⟩
  | cons e rest ih =>
    intro st c chk hc hst hchk
    rw [List.cons_append, clockOK_cons] at hc
    rw [main.run, lastCheck]
    have ht := tick_window cfg e st c hage hc.1 hc.2.1 hc.2.2.1 hst
    exact ih _ e.now48 e.now47 hc.2.2.2 ht.1 ht.2

/-! ## The renderer: `createErrorMessage` -/

/-- C3 as stated fails: the trace id is rendered by `TraceID.String()` as 16 or more
hexadecimal digits.  The span of the specification's example, with the trace id whose
digits are `abc`, renders `Trace: 0000000000000abc`, not `Trace: abc`; and whatever the
trace id of the span, the text with `Trace: abc` is not the result. -/
theorem createErrorMessage_traceId_padded :
    createErrorMessage exampleSpan exampleLog =
        "Error occured!\n\nParent: op (ns)\nTrace: 0000000000000abc\n\nTarget: T\n\nE\nM" ∧
      createErrorMessage exampleSpan exampleLog ≠
        "Error occured!\n\nParent: op (ns)\nTrace: abc\n\nTarget: T\n\nE\nM" ∧
      ∀ traceID : TraceID,
        createErrorMessage ⟨"op", traceID, [⟨"code.namespace", "ns"⟩], []⟩ exampleLog ≠
          "Error occured!\n\nParent: op (ns)\nTrace: abc\n\nTarget: T\n\nE\nM" := by
  refine ⟨by decide, by decide, ?_⟩
  intro traceID h
  rw [createErrorMessage_eq_render] at h
  have hlen := congrArg String.length h
  have h16 := traceID_String_length traceID
  have hfix : lastValue "code.namespace" [(⟨"code.namespace", "ns"⟩ : KeyValue)] = "ns" := by
    decide
  have ht : lastValue "target" exampleLog.Fields = "T" := by decide
  have he : lastValue "event" exampleLog.Fields = "E" := by decide
  have hm : lastValue "exception.message" exampleLog.Fields = "M" := by decide
  simp only [hfix, ht, he, hm, Spec.render, String.length_append] at hlen
  have e1 : "Error occured!\n\nParent: ".length = 24 := by decide
  have e2 : "op".length = 2 := by decide
  have e3 : " (".length = 2 := by decide
  have e4 : "ns".length = 2 := by decide
  have e5 : ")\nTrace: ".length = 9 := by decide
  have e6 : "\n\nTarget: ".length = 10 := by decide
  have e7 : "T".length = 1 := by decide
  have e8 : "\n\n".length = 2 := by decide
  have e9 : "E".length = 1 := by decide
  have e10 : "\n".length = 1 := by decide
  have e11 : "M".length = 1 := by decide
  have e12 : "Error occured!\n\nParent: op (ns)\nTrace: abc\n\nTarget: T\n\nE\nM".length = 58 := by
    decide
  rw [e1, e2, e3, e4, e5, e6, e7, e8, e9, e10, e11, e12] at hlen
  omega

/-- C3, amended: for every span and log event `createErrorMessage` returns exactly the layout
`Error occured!\n\nParent: <operation> (<namespace>)\nTrace: <traceId>\n\nTarget: <target>\n\n<event>\n<message>`
where operation comes from the span, traceId is the span's trace id as rendered by
`TraceID.String()` (at least 16 characters: the low half as 16 hexadecimal digits, preceded
by the high half when that is not zero), namespace is the value of a span tag with key
`code.namespace`, and target, event, message are values of log fields with keys `target`,
`event`, `exception.message`; a part whose key is absent is the empty string and the
literal text around it is kept.  The specification's example, with the trace id whose
digits are `abc`, renders exactly
`Error occured!\n\nParent: op (ns)\nTrace: 0000000000000abc\n\nTarget: T\n\nE\nM`. -/
theorem createErrorMessage_renders :
    (∀ (span : Span) (log : Log), ∃ namespace_ target event message : String,
      createErrorMessage span log =
        "Error occured!\n\nParent: " ++ span.OperationName ++ " (" ++ namespace_ ++ ")\nTrace: " ++
          span.TraceID.String ++ "\n\nTarget: " ++ target ++ "\n\n" ++ event ++ "\n" ++ message ∧
      16 ≤ span.TraceID.String.length ∧
      Spec.IsValueOf "code.namespace" span.Tags namespace_ ∧
      Spec.IsValueOf "target" log.Fields target ∧
      Spec.IsValueOf "event" log.Fields event ∧
      Spec.IsValueOf "exception.message" log.Fields message) ∧
    createErrorMessage exampleSpan exampleLog =
      "Error occured!\n\nParent: op (ns)\nTrace: 0000000000000abc\n\nTarget: T\n\nE\nM" ∧
    createErrorMessage ⟨"op", ⟨0, 0xabc⟩, [], []⟩ ⟨[]⟩ =
      "Error occured!\n\nParent: op ()\nTrace: 0000000000000abc\n\nTarget: \n\n\n" ∧
    createErrorMessage ⟨"op", ⟨1, 0xabc⟩, [], []⟩ ⟨[]⟩ =
      "Error occured!\n\nParent: op ()\nTrace: 00000000000000010000000000000abc\n\nTarget: \n\n\n" := by
  refine ⟨?_, by decide, by decide, by decide⟩
  intro span log
  exact ⟨_, _, _, _, createErrorMessage_eq_render span log, traceID_String_length span.TraceID,
    lastValue_isValueOf _ _, lastValue_isValueOf _ _, lastValue_isValueOf _ _,
    lastValue_isValueOf _ _⟩

/-- C8 as stated fails: with `event`, `target`, `exception.message` and the tag
`code.namespace` each given twice, the message shows the second values, not the first. -/
theorem createErrorMessage_first_match_fails :
    createErrorMessage repeatedSpan repeatedLog =
        "Error occured!\n\nParent: op (ns2)\nTrace: 0000000000000abc\n\nTarget: T2\n\nE2\nM2" ∧
      createErrorMessage repeatedSpan repeatedLog ≠
        Spec.render repeatedSpan.OperationName
          (Spec.firstValue "code.namespace" repeatedSpan.Tags) repeatedSpan.TraceID.String
          (Spec.firstValue "target" repeatedLog.Fields) (Spec.firstValue "event" repeatedLog.Fields)
          (Spec.firstValue "exception.message" repeatedLog.Fields) := by
  decide

/-- C8, amended: when a key among `event` / `target` / `exception.message` occurs more
than once in the log event, `createErrorMessage` renders the value of the LAST field with
that key, and the rendered namespace is the value of the last `code.namespace` tag. -/
theorem createErrorMessage_last_match (span : Span) (log : Log) :
    createErrorMessage span log =
      Spec.render span.OperationName (lastValue "code.namespace" span.Tags) span.TraceID.String
        (lastValue "target" log.Fields) (lastValue "event" log.Fields)
        (lastValue "exception.message" log.Fields) :=
  createErrorMessage_eq_render span log

/-! ## The classifier inside `getErrorMessages` -/

/-- C4: a log event is classified as an error exactly when one of its fields has key
`level` and a value that is `error` in some mix of upper and lower case; the messages
`getErrorMessages` returns are those of the events so classified, in order; `ERROR`,
`Error`, `error` are errors, `info` and an event without a `level` field are not. -/
theorem isError_classification :
    (∀ log : Log, getErrorMessages.isError log.Fields = true ↔ Spec.isErrorEvent log) ∧
    (∀ (chunks : List SpansResponseChunk) (last : Option GoError) (serverAddr : String)
        (startTime : Int) (serviceName : String),
      (getErrorMessages (fun _ _ _ => .stream chunks last) serverAddr startTime serviceName).1 =
        (Spec.errorEvents chunks).map fun p => createErrorMessage p.1 p.2) ∧
    getErrorMessages.isError [⟨"level", "ERROR"⟩] = true ∧
    getErrorMessages.isError [⟨"level", "Error"⟩] = true ∧
    getErrorMessages.isError [⟨"level", "error"⟩] = true ∧
    getErrorMessages.isError [⟨"level", "info"⟩] = false ∧
    getErrorMessages.isError [⟨"event", "error"⟩] = false ∧
    getErrorMessages.isError [⟨"Level", "error"⟩] = false ∧
    getErrorMessages.isError [] = false := by
  refine ⟨?_, ?_, by decide, by decide, by decide, by decide, by decide, by decide, by decide⟩
  · intro log
    rw [isError_iff]
    unfold Spec.isErrorEvent
    constructor
    · rintro ⟨field, hm, hk, hv⟩
      exact ⟨field, hm, hk, (toLower_eq_error _).1 hv⟩
    · rintro ⟨field, hm, hk, hv⟩
      exact ⟨field, hm, hk, (toLower_eq_error _).2 hv⟩
  · intro chunks last serverAddr startTime serviceName
    rw [getErrorMessages_stream _ _ _ _ chunks last rfl]

/-! ## The notifier: `sendErrorMessages` -/

/-- C5 as stated fails: a text of 3000 two-byte characters has no more than 4000
characters, yet what is sent is not the text but its first 4000 bytes. -/
theorem cut_counts_bytes :
    accentedText.length ≤ 4000 ∧ sendErrorMessages.cut accentedText ≠ goBytes accentedText ∧
      (sendErrorMessages.cut accentedText).length = 4000 ∧
      (goBytes accentedText).length = 6000 := by
  have hlen : (goBytes accentedText).length = 6000 := by
    unfold accentedText
    rw [goBytes_replicate_length]
    have : (Char.ofNat 233).utf8Size = 2 := by decide
    rw [this]
  have hcut : (sendErrorMessages.cut accentedText).length = 4000 := by
    unfold sendErrorMessages.cut
    rw [if_pos (by omega), List.length_take, hlen]
    rfl
  refine ⟨?_, ?_, hcut, hlen⟩
  · show (List.replicate 3000 (Char.ofNat 233)).length ≤ 4000
    rw [List.length_replicate]
    omega
  · intro h
    rw [h] at hcut
    omega

/-- C5, amended: length is counted in bytes of the UTF-8 encoding.  If the text is longer
than 4000 bytes, what is sent is exactly its first 4000 bytes; if it has 4000 bytes or
fewer, what is sent is the text unchanged; in both cases an initial segment of the text's
bytes.  For a text of single-byte (ASCII) characters only, bytes are characters: longer
than 4000 characters gives the first 4000 characters, otherwise the text unchanged. -/
theorem cut_bytes (s : String) :
    ((goBytes s).length > 4000 →
      sendErrorMessages.cut s = (goBytes s).take 4000 ∧ (sendErrorMessages.cut s).length = 4000) ∧
    ((goBytes s).length ≤ 4000 → sendErrorMessages.cut s = goBytes s) ∧
    sendErrorMessages.cut s <+: goBytes s ∧
    ((∀ c ∈ s.data, c.toNat < 128) →
      (s.length > 4000 → sendErrorMessages.cut s = goBytes ⟨s.data.take 4000⟩) ∧
      (s.length ≤ 4000 → sendErrorMessages.cut s = goBytes s)) := by
  refine ⟨?_, ?_, ?_, ?_⟩
  · intro h
    unfold sendErrorMessages.cut
    rw [if_pos h, List.length_take]
    exact ⟨rfl, by omega⟩
  · intro h
    unfold sendErrorMessages.cut
    rw [if_neg (by omega)]
  · unfold sendErrorMessages.cut
    split
    · exact List.take_prefix _ _
    · exact List.prefix_refl _
  · intro hascii
    have hone : ∀ c ∈ s.data, (String.utf8EncodeChar c).length = 1 := by
      intro c hc
      rw [String.length_utf8EncodeChar, utf8Size_ascii c (hascii c hc)]
    have hfm := flatMap_take_of_length_one String.utf8EncodeChar 4000 s.data hone
    have hlen : (goBytes s).length = s.length := hfm.1
    unfold sendErrorMessages.cut
    constructor
    · intro h
      rw [if_pos (by omega)]
      exact hfm.2
    · intro h
      rw [if_neg (by omega)]

/-- Witness for C5: the short ASCII text `abc` is sent unchanged, the 5000-character
ASCII text is cut to its first 4000 characters, and the 6000-byte text is cut to 4000
bytes. -/
theorem cut_bytes_witness :
    sendErrorMessages.cut "abc" = goBytes "abc" ∧
      sendErrorMessages.cut longAsciiText = goBytes ⟨longAsciiText.data.take 4000⟩ ∧
      (sendErrorMessages.cut accentedText).length = 4000 := by
  have hascii : ∀ c ∈ longAsciiText.data, c.toNat < 128 := by
    intro c hc
    rw [List.eq_of_mem_replicate hc]
    decide
  have hlong : longAsciiText.length > 4000 := by
    show (List.replicate 5000 'a').length > 4000
    rw [List.length_replicate]
    omega
  have hbytes : (goBytes accentedText).length > 4000 := by
    unfold accentedText
    rw [goBytes_replicate_length]
    have : (Char.ofNat 233).utf8Size = 2 := by decide
    omega
  exact ⟨((cut_bytes "abc").2.2.2 (by decide)).2 (by decide),
    ((cut_bytes longAsciiText).2.2.2 hascii).1 hlong,
    ((cut_bytes accentedText).1 hbytes).2⟩

/-- C6: `sendErrorMessages` attempts the texts `Found n errors`, trunc(f1), ..., trunc(fn)
in this order, each at most once, where trunc(f) is the first 4000 bytes of f (all of f
when it has no more).  If every send succeeds, exactly these n+1 texts are sent and no
error is returned; otherwise it stops at the first failing send, returns that send's
error, attempts nothing after it, and the delivered texts are exactly those before the
failing one. -/
theorem sendErrorMessages_order (errorMessages : List String) (bot : Bot) (recipient : Int)
    (sent : List SendRecord) :
    ∃ new : List SendRecord,
      (sendErrorMessages errorMessages bot recipient sent).1 = sent ++ new ∧
      Spec.SentInOrder bot recipient sent
        (goBytes ("Found " ++ toString errorMessages.length ++ " errors") ::
          errorMessages.map (fun f => (goBytes f).take 4000))
        new (sendErrorMessages errorMessages bot recipient sent).2 := by
  rw [sendErrorMessages_eq_sendInOrder]
  have hcut : errorMessages.map sendErrorMessages.cut =
      errorMessages.map (fun f => (goBytes f).take 4000) :=
    List.map_congr_left (fun f _ => cut_eq_take f)
  have hout : Spec.outbox errorMessages =
      goBytes ("Found " ++ toString errorMessages.length ++ " errors") ::
        errorMessages.map (fun f => (goBytes f).take 4000) := by
    unfold Spec.outbox
    rw [hcut]
  rw [hout]
  exact sendInOrder_spec bot recipient _ sent

/-! ## The poll loop: what a tick commits and sends -/

/-- C1 as stated fails: in a tick whose query succeeds with findings and whose
`sendErrorMessages` returns an error, `lastStartTime` is set to the tick's start time. -/
theorem poll_commits_after_failed_send :
    (getErrorMessages healthyTick.jaeger (sampleConfig failingBot).jaegerAddr
        freshState.lastStartTime (sampleConfig failingBot).serviceName).2 = none ∧
    (sendErrorMessages
        (getErrorMessages healthyTick.jaeger (sampleConfig failingBot).jaegerAddr
          freshState.lastStartTime (sampleConfig failingBot).serviceName).1
        (sampleConfig failingBot).bot (sampleConfig failingBot).recipientChatId
        freshState.sent).2 = some "telegram: unreachable" ∧
    (main.poll (sampleConfig failingBot) healthyTick freshState).lastStartTime = 100 ∧
    (main.poll (sampleConfig failingBot) healthyTick freshState).lastStartTime ≠
      freshState.lastStartTime := by
  decide

/-- C1, amended: if `getErrorMessages` returns an error, the state after the commit step
is the state before the tick (`lastStartTime` unchanged, nothing sent); if it returns no
error, `lastStartTime` after the commit step is the tick's start time `nextStartTime`,
whatever `sendErrorMessages` returns. -/
theorem poll_commit_rule (cfg : Config) (env : TickEnv) (st : LoopState) :
    ((getErrorMessages env.jaeger cfg.jaegerAddr st.lastStartTime cfg.serviceName).2 ≠ none →
      main.poll cfg env st = st) ∧
    ((getErrorMessages env.jaeger cfg.jaegerAddr st.lastStartTime cfg.serviceName).2 = none →
      (main.poll cfg env st).lastStartTime = env.now34) := by
  refine ⟨poll_of_query_error cfg env st, ?_⟩
  intro h
  rw [poll_of_query_ok cfg env st h]

/-- Witness for C1: an unreachable backend leaves the state as it was, a
healthy one commits the tick's start time even though every send fails. -/
theorem poll_commit_rule_witness :
    main.poll (sampleConfig failingBot) failedFirstTick freshState = freshState ∧
      (main.poll (sampleConfig failingBot) healthyTick freshState).lastStartTime =
        healthyTick.now34 :=
  ⟨(poll_commit_rule (sampleConfig failingBot) failedFirstTick freshState).1 (by decide),
    (poll_commit_rule (sampleConfig failingBot) healthyTick freshState).2 (by decide)⟩

/-- C2 as stated fails: the stream breaks after two chunks holding three error events;
`getErrorMessages` returns the three findings with the error, and the tick sends
nothing. -/
theorem stream_failure_drops_findings :
    (Spec.errorEvents twoSpans).length = 3 ∧
    (getErrorMessages breakingTick.jaeger (sampleConfig deliveringBot).jaegerAddr
        freshState.lastStartTime (sampleConfig deliveringBot).serviceName).1.length = 3 ∧
    (getErrorMessages breakingTick.jaeger (sampleConfig deliveringBot).jaegerAddr
        freshState.lastStartTime (sampleConfig deliveringBot).serviceName).2 =
      some "rpc error: stream reset" ∧
    (main.tick (sampleConfig deliveringBot) breakingTick freshState).sent = [] := by
  decide

/-- C2, amended: when the trace stream fails with a non-EOF error after some chunks,
`getErrorMessages` returns the findings of the chunks received before the failure
together with the error, and `main` does not hand them to the notifier: the tick makes no
`bot.Send` call and its commit step leaves `lastStartTime` unchanged.  The tick then ends
with the max-age clamp of lines 47-49 on that unchanged value: `lastStartTime` stays as it
was, unless it is before now - maxAge, in which case it becomes now - maxAge. -/
theorem stream_failure_not_notified (cfg : Config) (env : TickEnv) (st : LoopState)
    (chunks : List SpansResponseChunk) (err : GoError)
    (h : env.jaeger cfg.jaegerAddr st.lastStartTime cfg.serviceName = .stream chunks (some err)) :
    getErrorMessages env.jaeger cfg.jaegerAddr st.lastStartTime cfg.serviceName =
        ((Spec.errorEvents chunks).map (fun p => createErrorMessage p.1 p.2), some err) ∧
      main.poll cfg env st = st ∧
      (main.tick cfg env st).sent = st.sent ∧
      (main.tick cfg env st).lastStartTime =
        if st.lastStartTime < env.now47 - cfg.maximumAge then env.now48 - cfg.maximumAge
        else st.lastStartTime := by
  have hq := getErrorMessages_stream env.jaeger _ _ _ chunks (some err) h
  have hp : main.poll cfg env st = st := poll_of_query_error cfg env st (by simp [hq])
  refine ⟨hq, hp, ?_, ?_⟩
  · unfold main.tick
    rw [clamp_sent, hp]
  · unfold main.tick
    rw [clamp_lastStartTime, hp]

/-- Witness for C2: a first tick, started at time 0 with a maximum age of one hour, whose
stream breaks after five seconds: three findings are returned with the error, nothing is
sent, the commit step leaves the state as it was, and the clamp moves `lastStartTime` from
minus one hour to five seconds minus one hour. -/
theorem stream_failure_not_notified_witness :
    (getErrorMessages slowBreakingTick.jaeger (sampleConfig deliveringBot).jaegerAddr
        (main.init (sampleConfig deliveringBot) 0).lastStartTime
        (sampleConfig deliveringBot).serviceName).1.length = 3 ∧
      main.poll (sampleConfig deliveringBot) slowBreakingTick
        (main.init (sampleConfig deliveringBot) 0) = main.init (sampleConfig deliveringBot) 0 ∧
      (main.tick (sampleConfig deliveringBot) slowBreakingTick
        (main.init (sampleConfig deliveringBot) 0)).sent = [] ∧
      (main.init (sampleConfig deliveringBot) 0).lastStartTime = -3600000000000 ∧
      (main.tick (sampleConfig deliveringBot) slowBreakingTick
        (main.init (sampleConfig deliveringBot) 0)).lastStartTime = -3595000000000 := by
  have h := stream_failure_not_notified (sampleConfig deliveringBot) slowBreakingTick
    (main.init (sampleConfig deliveringBot) 0) twoSpans "rpc error: stream reset" rfl
  refine ⟨?_, h.2.1, h.2.2.1, by decide, ?_⟩
  · rw [h.1]
    decide
  · rw [h.2.2.2]
    decide

/-- C9: in a tick whose query ends normally and whose sends all succeed, with k the number
of error-classified log events of the streamed chunks: `lastStartTime` is committed to the
tick's start time; if k = 0 nothing is sent; if k >= 1 exactly k + 1 texts are sent and
delivered to the recipient, the summary `Found k errors` and then one text per
error-classified event in span order then log-event order. -/
theorem poll_success_messages (cfg : Config) (env : TickEnv) (st : LoopState)
    (chunks : List SpansResponseChunk)
    (hq : env.jaeger cfg.jaegerAddr st.lastStartTime cfg.serviceName = .stream chunks none)
    (hbot : ∀ sent recipient text, cfg.bot.respond sent recipient text = none) :
    (main.poll cfg env st).lastStartTime = env.now34 ∧
    ((Spec.errorEvents chunks).length = 0 → (main.poll cfg env st).sent = st.sent) ∧
    ((Spec.errorEvents chunks).length ≥ 1 →
      ∃ new : List SendRecord, (main.poll cfg env st).sent = st.sent ++ new ∧
        new.length = (Spec.errorEvents chunks).length + 1 ∧
        new.map (fun r => r.what) =
          goBytes ("Found " ++ toString (Spec.errorEvents chunks).length ++ " errors") ::
            (Spec.errorEvents chunks).map
              (fun p => sendErrorMessages.cut (createErrorMessage p.1 p.2)) ∧
        ∀ r ∈ new, r.recipient = cfg.recipientChatId ∧ r.err = none) := by
  have hg := getErrorMessages_stream env.jaeger _ _ _ chunks none hq
  have hp := poll_of_query_ok cfg env st (by rw [hg])
  rw [hg] at hp
  simp only [List.length_map] at hp
  refine ⟨by rw [hp], ?_, ?_⟩
  · intro hk
    rw [hp, if_neg (by omega)]
  · intro hk
    rw [hp, if_pos (by omega), sendErrorMessages_eq_sendInOrder,
      sendInOrder_allDelivered cfg.bot cfg.recipientChatId hbot]
    refine ⟨_, rfl, ?_, ?_, ?_⟩
    · simp [Spec.outbox]
    · simp [Spec.outbox, Function.comp_def]
    · intro r hr
      simp only [List.mem_map] at hr
      obtain ⟨text, _, rfl⟩ := hr
      exact ⟨rfl, rfl⟩

/-- Witness for C9: three error-classified log events across two
spans give exactly four messages, and the tick's start time is committed. -/
theorem poll_success_messages_witness :
    (Spec.errorEvents twoSpans).length = 3 ∧
      (main.poll (sampleConfig deliveringBot) healthyTick freshState).sent.length = 4 ∧
      (main.poll (sampleConfig deliveringBot) healthyTick freshState).lastStartTime = 100 := by
  have h := poll_success_messages (sampleConfig deliveringBot) healthyTick freshState twoSpans
    rfl (fun _ _ _ => rfl)
  have h3 : (Spec.errorEvents twoSpans).length = 3 := by decide
  obtain ⟨new, hnew, hlen, _, _⟩ := h.2.2 (by rw [h3]; decide)
  refine ⟨h3, ?_, h.1⟩
  rw [hnew, List.length_append, hlen, h3]
  rfl

/-! ## The poll loop: the window start over time -/

/-- C7 as stated fails: with a maximum age of one hour and a check interval of one minute,
after a first tick whose query fails the second tick queries from one hour and one minute
before its own start.  And with a maximum age of minus one hour the first tick's range
start lies one hour after the tick's start. -/
theorem window_exceeds_maximumAge :
    clockOK 0 [instantFailedTick, secondTick] = true ∧
    sleepOK (sampleConfig deliveringBot).checkInterval [instantFailedTick, secondTick] = true ∧
    secondTick.now34 -
        (main.run (sampleConfig deliveringBot) (main.init (sampleConfig deliveringBot) 0)
          [instantFailedTick]).lastStartTime =
      (sampleConfig deliveringBot).maximumAge + 1 * time.Minute ∧
    ¬ (secondTick.now34 -
        (main.run (sampleConfig deliveringBot) (main.init (sampleConfig deliveringBot) 0)
          [instantFailedTick]).lastStartTime ≤ (sampleConfig deliveringBot).maximumAge) ∧
    ¬ ((main.run negativeAgeConfig (main.init negativeAgeConfig 0) []).lastStartTime ≤
        instantFailedTick.now34) := by
  decide

/-- C7, amended: for every maxAge >= 0 and non-decreasing clock readings, the range start
passed to the query of any tick is at most the tick's start time, and lies at most maxAge
before the clock reading of the most recent max-age check (line 47 of the previous tick,
line 32 before the first tick).  So a query reaches at most maxAge plus the time elapsed
since that check, which includes the poll-interval sleep, into the past. -/
theorem window_bound (cfg : Config) (now32 : Int) (done : List TickEnv) (env : TickEnv)
    (post : List TickEnv) (hage : 0 ≤ cfg.maximumAge)
    (hclock : clockOK now32 (done ++ env :: post) = true) :
    (main.run cfg (main.init cfg now32) done).lastStartTime ≤ env.now34 ∧
      env.now34 - (main.run cfg (main.init cfg now32) done).lastStartTime ≤
        cfg.maximumAge + (env.now34 - lastCheck now32 done) := by
  have h := run_window cfg hage env post done (main.init cfg now32) now32 now32 hclock
    (by simp only [main.init]; omega) (by simp only [main.init]; omega)
  exact ⟨h.1, by omega⟩

/-- Witness for C7: the second tick after a failed first one. -/
theorem window_bound_witness :
    (main.run (sampleConfig deliveringBot) (main.init (sampleConfig deliveringBot) 0)
        [instantFailedTick]).lastStartTime ≤ secondTick.now34 ∧
      secondTick.now34 - (main.run (sampleConfig deliveringBot)
          (main.init (sampleConfig deliveringBot) 0) [instantFailedTick]).lastStartTime ≤
        (sampleConfig deliveringBot).maximumAge +
          (secondTick.now34 - lastCheck 0 [instantFailedTick]) :=
  window_bound (sampleConfig deliveringBot) 0 [instantFailedTick] secondTick [] (by decide)
    (by decide)

/-- C10 as stated fails in its second half: the max-age clamp assigns to the committed
`lastStartTime`.  After a first tick whose query fails after five seconds, the commit step
leaves the initial value of minus one hour, and the clamp overwrites it with five seconds
minus one hour. -/
theorem clamp_mutates_lastStartTime :
    clockOK 0 [failedFirstTick] = true ∧
    (main.poll (sampleConfig deliveringBot) failedFirstTick
        (main.init (sampleConfig deliveringBot) 0)).lastStartTime = -(1 * time.Hour) ∧
    (main.clamp (sampleConfig deliveringBot) failedFirstTick
        (main.poll (sampleConfig deliveringBot) failedFirstTick
          (main.init (sampleConfig deliveringBot) 0))).lastStartTime =
      5000000000 - 1 * time.Hour ∧
    (main.clamp (sampleConfig deliveringBot) failedFirstTick
        (main.poll (sampleConfig deliveringBot) failedFirstTick
          (main.init (sampleConfig deliveringBot) 0))).lastStartTime ≠
      (main.poll (sampleConfig deliveringBot) failedFirstTick
        (main.init (sampleConfig deliveringBot) 0)).lastStartTime := by
  decide

/-- C10, amended: across every run of the loop with non-decreasing clock readings (any
mix of successful and failed ticks, any maxAge), the value of `lastStartTime` at the end
of a tick is at least its value at the start of that tick.  The max-age clamp works on the
committed value itself: when `lastStartTime` is before now - maxAge it is overwritten with
now - maxAge, which never lowers it. -/
theorem lastStartTime_monotone (cfg : Config) (now32 : Int) (done : List TickEnv)
    (env : TickEnv) (post : List TickEnv)
    (hclock : clockOK now32 (done ++ env :: post) = true) :
    (main.run cfg (main.init cfg now32) done).lastStartTime ≤
        (main.run cfg (main.init cfg now32) (done ++ [env])).lastStartTime ∧
      (∀ st : LoopState, st.lastStartTime ≤ (main.clamp cfg env st).lastStartTime ∧
        (main.clamp cfg env st).lastStartTime =
          if st.lastStartTime < env.now47 - cfg.maximumAge then env.now48 - cfg.maximumAge
          else st.lastStartTime) := by
  have hrun : ∀ (l : List TickEnv) (st : LoopState),
      main.run cfg st (l ++ [env]) = main.tick cfg env (main.run cfg st l) := by
    intro l
    induction l with
    | nil => intro st; rfl
    | cons e rest ih => intro st; exact ih (main.tick cfg e st)
  have h47 : env.now47 ≤ env.now48 := by
    have : ∀ (l : List TickEnv) (c : Int), clockOK c (l ++ env :: post) = true →
        env.now47 ≤ env.now48 := by
      intro l
      induction l with
      | nil => intro c hc; rw [List.nil_append, clockOK_cons] at hc; exact hc.2.2.1
      | cons e rest ih => intro c hc; rw [List.cons_append, clockOK_cons] at hc; exact ih _ hc.2.2.2
    exact this done now32 hclock
  refine ⟨?_, fun st => ⟨clamp_raises cfg env st h47, clamp_lastStartTime cfg env st⟩⟩
  rw [hrun]
  exact run_monotone cfg env post done (main.init cfg now32) now32 hclock
    (Or.inr (by simp only [main.init]; omega))

/-- Witness for C10: a failed first tick followed by a second one. -/
theorem lastStartTime_monotone_witness :
    (main.run (sampleConfig deliveringBot) (main.init (sampleConfig deliveringBot) 0)
        [instantFailedTick]).lastStartTime ≤
      (main.run (sampleConfig deliveringBot) (main.init (sampleConfig deliveringBot) 0)
        ([instantFailedTick] ++ [secondTick])).lastStartTime :=
  (lastStartTime_monotone (sampleConfig deliveringBot) 0 [instantFailedTick] secondTick []
    (by decide)).1

end JaegerNotifier
